import Mathlib

/-!
Verification development for the BOSA SCPI driver (`BOSA.py`, class `BOSA23095`).

The transport and framing layer of the driver is embedded shallowly:

* Raw bytes are `Nat` values; decoded text is `List Char` (SCPI traffic is
  ASCII, so the per-chunk `bytes.decode()` is the identity on our model).
* The blocking socket loops of `read` and `read_TRACE_REAL` are modelled as
  fuel-indexed recursions over the stream of bytes the peer delivers; a
  `none` result means the loop has not terminated within `fuel` iterations.
* A closed TCP channel makes `socket.recv` return an empty byte string, which
  the model renders as an exhausted stream/schedule.
* An IEEE-754 float64 obtained from `struct.unpack('d', bs)` is represented
  by its 8-byte encoding `bs` (bit patterns of binary64 values correspond to
  8-byte strings one-to-one, so no information is lost by this choice).
-/

namespace BOSA

/-- Interface kind of a connection: `interfaceType` is validated in
`__init__`, which accepts exactly the strings whose lower-casing is
`"lan"` or `"gpib"` and raises otherwise. -/
inductive Interface
  | lan
  | gpib
deriving DecidableEq

/-- A raw byte of the binary trace stream. -/
abbrev Byte := Nat

/-- Python exceptions that the embedded fragments can raise. -/
inductive PyErr
  | typeError
  | nameError
  | attributeError
deriving DecidableEq

/-- Model of `struct.unpack('d', bs)`: succeeds exactly when `bs` has the
8 bytes of one float64 (otherwise `struct.error` is raised); the decoded
value is represented by its byte encoding. -/
def unpack_d (bs : List Byte) : Except Unit (List Byte) :=
  if bs.length = 8 then .ok bs else .error ()

/-- Decoding for-loop of `read_TRACE_REAL` (BOSA.py lines 441-445): for each
point index `x` starting at `x0`, entry 0 is `unpack('d', buf[x*16 : x*16+8])`
and entry 1 is `unpack('d', buf[x*16+8 : (x+1)*16])`; the Python slice
`buf[a : a+8]` is `(buf.drop a).take 8`.  An unpack failure aborts the whole
decode (the exception propagates out of the loop). -/
def decodeFrom (buf : List Byte) : Nat → Nat → Except Unit (List (List Byte × List Byte))
  | _, 0 => .ok []
  | x0, k+1 =>
    match unpack_d ((buf.drop (x0*16)).take 8),
          unpack_d ((buf.drop (x0*16+8)).take 8),
          decodeFrom buf (x0+1) k with
    | .ok a, .ok b, .ok rest => .ok ((a, b) :: rest)
    | .error e, _, _ => .error e
    | _, .error e, _ => .error e
    | _, _, .error e => .error e

/-- Decode of a received buffer into a trace of `numPoints` (x, y) pairs,
mirroring `for x in range(0, int(NumPoints))`. -/
def decodeTrace (numPoints : Nat) (buf : List Byte) :
    Except Unit (List (List Byte × List Byte)) :=
  decodeFrom buf 0 numPoints

/-- Request size passed to `recv` in the LAN loop of `read_TRACE_REAL`
(lines 403-406): the remaining count when it is below 19200, else 19200. -/
def recvRequestSize (msgLength : Nat) : Nat :=
  if msgLength < 19200 then msgLength else 19200

/-- LAN while-loop of `read_TRACE_REAL` (lines 400-421).  `stream` is the
flat sequence of bytes the peer still has to deliver and `sched` gives, per
`recv` call, how many bytes the socket makes available (an exhausted
`stream` or `sched` entry of `0` models a closed channel, where `recv`
returns `b''` without raising).  The loop accumulates `acc`, logs in `reqs`
the request size of every `recv` call, subtracts each delivery from
`msgLength` and stops only when `msgLength` reaches `0`.  `none` means the
loop is still running after `fuel` iterations. -/
def recvLanLoop : Nat → Nat → List Byte → List Nat → List Byte → List Nat →
    Option (List Byte × List Nat)
  | 0, _, _, _, _, _ => none
  | fuel+1, msgLength, stream, sched, acc, reqs =>
    let req := recvRequestSize msgLength
    let data := stream.take (min req (sched.headD 0))
    let acc2 := acc ++ data
    let rem := msgLength - data.length
    let reqs2 := reqs ++ [req]
    if rem = 0 then some (acc2, reqs2)
    else recvLanLoop fuel rem (stream.drop data.length) sched.tail acc2 reqs2

/-- Full LAN path of `read_TRACE_REAL`: `msgLength = NumPoints*2*8` bytes
are received by `recvLanLoop`, then the buffer is decoded.  The outer
`Option` is the fuel bound of the receive loop (`none` = still looping). -/
def read_TRACE_REAL_lan (numPoints : Nat) (stream : List Byte) (sched : List Nat)
    (fuel : Nat) : Option (Except Unit (List (List Byte × List Byte))) :=
  match recvLanLoop fuel (numPoints*2*8) stream sched [] [] with
  | none => none
  | some (buf, _) => some (decodeTrace numPoints buf)

/-- LAN while-loop of `read` (lines 300-316): each `recv(115200)` returns
the next delivered chunk (`chunks.headD []`, empty once the peer has
stopped), the chunk is decoded and appended to `message`, and the loop
stops as soon as `message` contains a newline anywhere, returning the whole
accumulated text. -/
def readLanLoop : Nat → List (List Char) → List Char → Option (List Char)
  | 0, _, _ => none
  | fuel+1, chunks, message =>
    let data := chunks.headD []
    let message2 := message ++ data
    if '\n' ∈ message2 then some message2
    else readLanLoop fuel chunks.tail message2

/-- LAN branch of `write` (line 264): `sendall((command + "\r\n").encode())`
delivers every byte of the command plus the terminator. -/
def write_lan (command : List Char) : List Char :=
  command ++ ['\r', '\n']

/-- Write termination appended by `pyvisa`'s `MessageBasedResource.write`
(the GPIB branch, line 280, calls `self.instrument.write(command)` and the
library appends its default `write_termination`, which is `"\r\n"`). -/
def visaWriteTerm : List Char := ['\r', '\n']

/-- GPIB branch of `write`: the command is handed to the VISA resource,
which puts `command ++ visaWriteTerm` on the wire. -/
def write_gpib (command : List Char) : List Char :=
  command ++ visaWriteTerm

/-- Bytes put on the channel by `write` for either interface kind
(lines 258-288 dispatch on `interfaceType.lower()`). -/
def write (kind : Interface) (command : List Char) : List Char :=
  match kind with
  | .lan => write_lan command
  | .gpib => write_gpib command

/-- Facade `ask` over a LAN connection: `write(command)` then `read()`.
The pair records the bytes written and the text returned by the read loop. -/
def ask_lan (command : List Char) (chunks : List (List Char)) (fuel : Nat) :
    List Char × Option (List Char) :=
  (write_lan command, readLanLoop fuel chunks [])

/-- Loosely-typed Python values passed to the facade setters (`on`,
`window`, `scale` parameters receive ints, strings or booleans). -/
inductive PyVal
  | int (n : Int)
  | str (s : List Char)
  | bool (b : Bool)
deriving DecidableEq

/-- Python `==` on the values above: `True == 1` and `False == 0` hold,
strings never equal numbers. -/
def pyEq : PyVal → PyVal → Bool
  | .int a, .int b => a == b
  | .int a, .bool b => a == (if b then 1 else 0)
  | .bool a, .int b => (if a then 1 else 0) == b
  | .bool a, .bool b => a == b
  | .str a, .str b => a == b
  | _, _ => false

/-- Python `str.upper()`. -/
def upperStr (s : List Char) : List Char := s.map Char.toUpper

/-- Python `str()` of a loosely-typed value. -/
def pyStr : PyVal → List Char
  | .int n => (toString n).toList
  | .str s => s
  | .bool b => if b then "True".toList else "False".toList

/-- Outcome of one facade setter call: a command handed to `ask`, a
diagnostic printed with a normal (`None`) return, or an exception escaping
the call. -/
inductive SetterResult
  | sent (cmd : List Char)
  | printedDiag (msg : List Char)
  | raised (e : PyErr)
deriving DecidableEq

/-- Tuple `(1, 0, "1", "0", True, False)` that `set_state` checks `on`
against (membership via Python `==`). -/
def onTokens : List PyVal :=
  [.int 1, .int 0, .str ['1'], .str ['0'], .bool true, .bool false]

/-- Guard of `set_state` (line 505): `meas_state.upper() in ('HOLD','RUN')
and on in (1,0,"1","0",True,False)`. -/
def stateArgsValid (meas_state : List Char) (onVal : PyVal) : Bool :=
  ((upperStr meas_state == "HOLD".toList) || (upperStr meas_state == "RUN".toList))
    && onTokens.any (fun t => pyEq onVal t)

/-- Facade setter `set_state` (lines 504-512).  On the valid branch `on` is
normalised (`on == True` → `1`, `on == False` → `0`, so `1`/`True` become
int `1`) and `"INST:STAT:" + meas_state + " " + str(on)` is sent.  On the
invalid branch the diagnostic concatenates `on` into a string, which raises
`TypeError` unless `on` is itself a string. -/
def set_state (meas_state : List Char) (onVal : PyVal) : SetterResult :=
  if stateArgsValid meas_state onVal then
    let on2 : PyVal :=
      if pyEq onVal (.bool true) then .int 1
      else if pyEq onVal (.bool false) then .int 0
      else onVal
    .sent ("INST:STAT:".toList ++ meas_state ++ [' '] ++ pyStr on2)
  else
    match onVal with
    | .str s =>
        .printedDiag ("Measurement state ".toList ++ meas_state
          ++ " or state ".toList ++ s ++ " not valid".toList)
    | _ => .raised .typeError

/-- Python `str(magnitude or "")` for a `magnitude` that is `None` or a
string. -/
def magStr : Option (List Char) → List Char
  | none => []
  | some s => s

/-- Window check shared by the display setters (lines 539-545): `True`
gives `":WIND"`, `False` gives `""`, anything else prints a diagnostic and
returns early (`TypeError` if the diagnostic cannot concatenate a
non-string value). -/
def windPart (window : PyVal) : Except SetterResult (List Char) :=
  if pyEq window (.bool true) then .ok ":WIND".toList
  else if pyEq window (.bool false) then .ok []
  else match window with
    | .str s =>
        .error (.printedDiag
          ("Value for window must be boolean, instead it is ".toList ++ s))
    | _ => .error (.raised .typeError)

/-- Scale check of `set_bottomY` (lines 546-551): like the window check but
with NO early return on the invalid branch — the code prints and falls
through to line 552 where the never-assigned local `scal` is read, raising
`NameError` (or `TypeError` first if the diagnostic cannot concatenate a
non-string value). -/
def scalPart (scale : PyVal) : Except SetterResult (List Char) :=
  if pyEq scale (.bool true) then .ok ":SCAL".toList
  else if pyEq scale (.bool false) then .ok []
  else match scale with
    | .str _ => .error (.raised .nameError)
    | _ => .error (.raised .typeError)

/-- Facade setter `set_bottomY` (lines 538-555).  With the window and scale
parts resolved, a magnitude whose upper-casing is `"DBM"`, `"MW"` or `""`
is appended to the command; any OTHER magnitude still sends the command,
merely without the magnitude suffix (the `else` on line 554 also calls
`self.ask`). -/
def set_bottomY (value : List Char) (magnitude : Option (List Char))
    (window scale : PyVal) : SetterResult :=
  match windPart window with
  | .error r => r
  | .ok wind =>
    match scalPart scale with
    | .error r => r
    | .ok scal =>
      let u := upperStr (magStr magnitude)
      if (u == "DBM".toList) || (u == "MW".toList) || (u == []) then
        .sent ("DISP".toList ++ wind ++ ":TRAC:Y".toList ++ scal
          ++ ":BOTT ".toList ++ value ++ u)
      else
        .sent ("DISP".toList ++ wind ++ ":TRAC:Y".toList ++ scal
          ++ ":BOTT ".toList ++ value)

/-- Outcome of the destructor `__del__`. -/
inductive DelOutcome
  | closedOk
  | propagated (e : PyErr)
deriving DecidableEq

/-- Attribute lookup `e.message` on a caught exception (line 216): Python 3
exceptions carry no `message` attribute, so the lookup itself raises
`AttributeError`. -/
def exceptionMessageAttr (_e : PyErr) : Except PyErr (List Char) :=
  .error .attributeError

/-- Destructor `__del__` (lines 202-216).  `closeResult` is the outcome of
the try-block (`self.instrument.close()` for either interface kind, or the
attribute lookup of a never-assigned `self.instrument`): `none` when it
completes, `some e` when it raises `e`.  The except-handler formats its log
message with `e.message`, so any caught error is replaced by the
`AttributeError` escaping the handler. -/
def del_method (closeResult : Option PyErr) : DelOutcome :=
  match closeResult with
  | none => .closedOk
  | some e =>
    match exceptionMessageAttr e with
    | .ok _ => .closedOk
    | .error e2 => .propagated e2

/-- Transport calls a facade operation performs, in order. -/
inductive Action
  | wr (command : List Char)
  | rd
deriving DecidableEq

/-- Calls of `ask` (lines 351-361): one write, then one read. -/
def ask_actions (command : List Char) : List Action :=
  [.wr command, .rd]

/-- Calls of `ask_TRACE_REAL` (lines 363-373): write `"TRAC?"`, then one
binary read. -/
def ask_TRACE_REAL_actions : List Action :=
  [.wr "TRAC?".toList, .rd]

/-- Calls of `ask_TRACE_ASCII` (lines 375-386): write `"FORM ASCII"`, write
`"TRAC?"`, then one ASCII read. -/
def ask_TRACE_ASCII_actions : List Action :=
  [.wr "FORM ASCII".toList, .wr "TRAC?".toList, .rd]

/-- Checks the request/response discipline: every write is followed by
exactly one read before the next write. -/
def oneReadPerWrite : List Action → Bool
  | [] => true
  | .wr _ :: .rd :: rest => oneReadPerWrite rest
  | _ => false

/-- Underlying instrument handle: `connectLan` stores a stream socket,
the GPIB branch stores a VISA resource.  `asciiValues` are the parsed
floats `read_ascii_values` would produce, each represented by its numeric
token. -/
inductive Handle
  | socket
  | visaResource (asciiValues : List (List Char))
deriving DecidableEq

/-- Attribute lookup `self.instrument.read_ascii_values`: socket objects
expose no such method, VISA resources do. -/
def readAsciiValuesAttr : Handle → Option (List (List Char))
  | .socket => none
  | .visaResource vs => some vs

/-- Handle stored in `self.instrument` by `__init__` for each interface
kind (lines 106-141). -/
def instrumentOf (kind : Interface) (vs : List (List Char)) : Handle :=
  match kind with
  | .lan => .socket
  | .gpib => .visaResource vs

/-- `read_TRACE_ASCII` (lines 449-471): unconditionally calls
`self.instrument.read_ascii_values(...)` — there is no dispatch on the
interface kind.  On a socket the attribute lookup raises `AttributeError`,
which the except-handler logs and re-raises; on a VISA resource the first
call returns the parsed list (a list never equals `''`, so the loop exits
immediately). -/
def read_TRACE_ASCII (h : Handle) : Except PyErr (List (List Char)) :=
  match readAsciiValuesAttr h with
  | none => .error .attributeError
  | some vs => .ok vs

/-- `ask_TRACE_ASCII` (lines 375-386): after the two writes, the returned
value is whatever `read_TRACE_ASCII` produces. -/
def ask_TRACE_ASCII (h : Handle) : Except PyErr (List (List Char)) :=
  read_TRACE_ASCII h

/-- The decode loop succeeds on a long-enough buffer and produces exactly
the 8-byte slices at offsets `i*16` and `i*16+8` for each index `i` in
`[x0, x0+k)`. -/
theorem decodeFrom_ok (buf : List Byte) (k : Nat) :
    ∀ x0, (x0 + k) * 16 ≤ buf.length →
      decodeFrom buf x0 k =
        .ok ((List.range' x0 k).map fun i =>
          ((buf.drop (i*16)).take 8, (buf.drop (i*16+8)).take 8)) := by
  induction k with
  | zero => intro x0 _; simp [decodeFrom]
  | succ k ih =>
    intro x0 h
    have h1 : ((buf.drop (x0*16)).take 8).length = 8 := by
      simp only [List.length_take, List.length_drop]
      omega
    have h2 : ((buf.drop (x0*16+8)).take 8).length = 8 := by
      simp only [List.length_take, List.length_drop]
      omega
    have hrec := ih (x0+1) (by omega)
    rw [show List.range' x0 (k+1) = x0 :: List.range' (x0+1) k from rfl]
    simp [decodeFrom, unpack_d, h1, h2, hrec]

/-- C1: for every point count `N ≥ 0`, `read_TRACE_REAL` applied to a
received buffer of exactly `N*16` bytes returns a trace of length exactly
`N` whose `i`-th entry is the pair of float64 values decoded from byte
offsets `[i*16, i*16+8)` and `[i*16+8, i*16+16)` of the buffer. -/
theorem read_TRACE_REAL_decodes_pairs (n : Nat) (buf : List Byte)
    (h : buf.length = n * 16) :
    ∃ t, decodeTrace n buf = .ok t ∧ t.length = n ∧
      ∀ i, i < n →
        t[i]? = some ((buf.drop (i*16)).take 8, (buf.drop (i*16+8)).take 8) := by
  have hd := decodeFrom_ok buf n 0 (by omega)
  refine ⟨_, by simpa [decodeTrace] using hd, ?_, ?_⟩
  · simp
  · intro i hi
    rw [List.getElem?_map]
    rw [List.getElem?_eq_getElem (by simpa using hi)]
    simp [List.getElem_range' ]

/-- Witness for C1 at `N = 1` on a concrete 16-byte buffer. -/
theorem read_TRACE_REAL_decodes_pairs_witness :
    ([0,1,2,3,4,5,6,7,8,9,10,11,12,13,14,15] : List Byte).length = 1 * 16 ∧
      (∃ t, decodeTrace 1 [0,1,2,3,4,5,6,7,8,9,10,11,12,13,14,15] = .ok t ∧
        t.length = 1 ∧ ∀ i, i < 1 →
          t[i]? = some
            ((([0,1,2,3,4,5,6,7,8,9,10,11,12,13,14,15] : List Byte).drop (i*16)).take 8,
             (([0,1,2,3,4,5,6,7,8,9,10,11,12,13,14,15] : List Byte).drop (i*16+8)).take 8)) :=
  ⟨by decide, read_TRACE_REAL_decodes_pairs 1 _ (by decide)⟩

/-- Taking as many elements as a previous `take` yields the same list. -/
theorem take_length_take {α : Type} (l : List α) (n : Nat) :
    l.take ((l.take n).length) = l.take n := by
  rw [List.length_take]
  rcases Nat.le_total n l.length with h | h
  · rw [Nat.min_eq_left h]
  · rw [Nat.min_eq_right h, List.take_of_length_le h, List.take_of_length_le (Nat.le_refl _)]

/-- Gluing a `take` with a further `take` of the rest recovers a single
`take`. -/
theorem take_drop_glue {α : Type} (l : List α) (u m : Nat)
    (h : (l.take u).length ≤ m) :
    l.take u ++ (l.drop ((l.take u).length)).take (m - (l.take u).length) = l.take m := by
  set n := (l.take u).length with hn
  have ht : l.take n = l.take u := by rw [hn]; exact take_length_take l u
  rw [← ht, ← List.take_add]
  congr 1
  omega

/-- If the receive loop of `read_TRACE_REAL` terminates, the stream held at
least the outstanding byte count: every accumulated byte comes from the
stream and the loop stops only at count zero. -/
theorem recvLanLoop_le_of_some : ∀ fuel m (stream : List Byte) (sched : List Nat)
    (acc : List Byte) (reqs : List Nat) r,
    recvLanLoop fuel m stream sched acc reqs = some r → m ≤ stream.length := by
  intro fuel
  induction fuel with
  | zero => intro m stream sched acc reqs r h; simp [recvLanLoop] at h
  | succ fuel ih =>
    intro m stream sched acc reqs r h
    simp only [recvLanLoop] at h
    have hreqle : recvRequestSize m ≤ m := by
      unfold recvRequestSize; split <;> omega
    have hlen : (stream.take (min (recvRequestSize m) (sched.headD 0))).length
        = min (min (recvRequestSize m) (sched.headD 0)) stream.length :=
      List.length_take _ _
    split at h
    · omega
    · have hrec := ih _ _ _ _ _ _ h
      rw [List.length_drop] at hrec
      omega

/-- Full behaviour of the receive loop on a live channel: with positive
per-call availability, a stream holding at least `m` bytes and enough fuel,
the loop returns the first `m` bytes of the stream appended to the
accumulator, and every request it logged is at most 19200. -/
theorem recvLanLoop_delivers : ∀ fuel m (stream : List Byte) (sched : List Nat)
    (acc : List Byte) (reqs : List Nat),
    (∀ a ∈ sched, 0 < a) → m ≤ stream.length → m ≤ sched.length → m < fuel →
    ∃ rs, recvLanLoop fuel m stream sched acc reqs
        = some (acc ++ stream.take m, reqs ++ rs) ∧ ∀ r ∈ rs, r ≤ 19200 := by
  intro fuel
  induction fuel with
  | zero => intro m _ _ _ _ _ _ _ hf; omega
  | succ fuel ih =>
    intro m stream sched acc reqs hpos hs hc hf
    by_cases hm : m = 0
    · subst hm
      refine ⟨[0], ?_, by simp⟩
      simp [recvLanLoop, recvRequestSize]
    · cases sched with
      | nil => simp at hc; omega
      | cons a rest =>
        have ha : 0 < a := hpos a (List.mem_cons_self a rest)
        have hreqle : recvRequestSize m ≤ m := by
          unfold recvRequestSize; split <;> omega
        have hreqpos : 0 < recvRequestSize m := by
          unfold recvRequestSize; split <;> omega
        have hreq19200 : recvRequestSize m ≤ 19200 := by
          unfold recvRequestSize; split <;> omega
        simp only [recvLanLoop, List.headD_cons, List.tail_cons]
        have hlen : (stream.take (min (recvRequestSize m) a)).length
            = min (min (recvRequestSize m) a) stream.length := List.length_take _ _
        have htk : stream.take ((stream.take (min (recvRequestSize m) a)).length)
            = stream.take (min (recvRequestSize m) a) := take_length_take _ _
        by_cases hrem : m - (stream.take (min (recvRequestSize m) a)).length = 0
        · refine ⟨[recvRequestSize m], ?_, by simp; omega⟩
          rw [if_pos hrem]
          have hdm : (stream.take (min (recvRequestSize m) a)).length = m := by omega
          rw [show stream.take (min (recvRequestSize m) a) = stream.take m by
            rw [← htk, hdm]]
        · rw [if_neg hrem]
          obtain ⟨rs', heq, hle⟩ := ih (m - (stream.take (min (recvRequestSize m) a)).length)
            (stream.drop ((stream.take (min (recvRequestSize m) a)).length)) rest
            (acc ++ stream.take (min (recvRequestSize m) a))
            (reqs ++ [recvRequestSize m])
            (fun b hb => hpos b (List.mem_cons_of_mem a hb))
            (by rw [List.length_drop]; omega)
            (by simp at hc ⊢; omega)
            (by omega)
          refine ⟨recvRequestSize m :: rs', ?_, ?_⟩
          · rw [heq]
            simp only [List.append_assoc, List.singleton_append]
            rw [take_drop_glue stream (min (recvRequestSize m) a) m (by omega)]
          · intro r hr
            rcases List.mem_cons.mp hr with h | h
            · omega
            · exact hle r h

/-- C5: in NETWORK mode `read_TRACE_REAL` requests at most 19200 bytes per
`recv` call — exactly the remaining count when fewer than 19200 bytes
remain — and the concatenation of the accumulated chunks equals the first
`byteCount` bytes of the delivered stream. -/
theorem receive_exact_chunked (byteCount : Nat) (stream : List Byte) (sched : List Nat)
    (fuel : Nat) (hpos : ∀ a ∈ sched, 0 < a) (hs : byteCount ≤ stream.length)
    (hc : byteCount ≤ sched.length) (hf : byteCount < fuel) :
    (∀ m, recvRequestSize m ≤ 19200 ∧ (m < 19200 → recvRequestSize m = m)) ∧
    ∃ rs, recvLanLoop fuel byteCount stream sched [] []
        = some (stream.take byteCount, rs) ∧ ∀ r ∈ rs, r ≤ 19200 := by
  constructor
  · intro m
    constructor
    · unfold recvRequestSize; split <;> omega
    · intro h; simp [recvRequestSize, h]
  · obtain ⟨rs, h1, h2⟩ := recvLanLoop_delivers fuel byteCount stream sched [] [] hpos hs hc hf
    exact ⟨rs, by simpa using h1, h2⟩

/-- Witness for C5: five bytes requested from a six-byte stream delivered
two bytes per call. -/
theorem receive_exact_chunked_witness :
    ((∀ a ∈ ([2,2,2,2,2] : List Nat), 0 < a) ∧ 5 ≤ ([1,2,3,4,5,6] : List Byte).length
        ∧ 5 ≤ ([2,2,2,2,2] : List Nat).length ∧ 5 < 6) ∧
    ((∀ m, recvRequestSize m ≤ 19200 ∧ (m < 19200 → recvRequestSize m = m)) ∧
      ∃ rs, recvLanLoop 6 5 [1,2,3,4,5,6] [2,2,2,2,2] [] []
          = some (([1,2,3,4,5,6] : List Byte).take 5, rs) ∧ ∀ r ∈ rs, r ≤ 19200) :=
  ⟨⟨by decide, by decide, by decide, by decide⟩,
    receive_exact_chunked 5 [1,2,3,4,5,6] [2,2,2,2,2] 6 (by decide) (by decide)
      (by decide) (by decide)⟩

/-- C2 (behaviour at a closed channel): when the peer closes the connection
before delivering the full `N*2*8` bytes, `recv` keeps returning empty data
and the LAN loop of `read_TRACE_REAL` never terminates — for every fuel it
is still running, so no partial trace is ever returned, but contrary to the
claim no error is raised either. -/
theorem read_TRACE_REAL_hangs_on_short_stream (n : Nat) (stream : List Byte)
    (sched : List Nat) (h : stream.length < n*2*8) :
    ∀ fuel, read_TRACE_REAL_lan n stream sched fuel = none := by
  intro fuel
  unfold read_TRACE_REAL_lan
  cases heq : recvLanLoop fuel (n*2*8) stream sched [] [] with
  | none => rfl
  | some r =>
    have := recvLanLoop_le_of_some fuel (n*2*8) stream sched [] [] r heq
    omega

/-- Witness for C2: one point requested, the channel closes after three of
the sixteen needed bytes. -/
theorem read_TRACE_REAL_hangs_on_short_stream_witness :
    ([0,1,2] : List Byte).length < 1*2*8 ∧
      read_TRACE_REAL_lan 1 [0,1,2] [3] 4 = none :=
  ⟨by decide, read_TRACE_REAL_hangs_on_short_stream 1 [0,1,2] [3] (by decide) 4⟩

/-- Characterisation of a terminating `read` loop: the returned text is the
concatenation of the shortest prefix of delivered chunks whose accumulation
contains a newline, and it does contain that newline. -/
theorem readLanLoop_some : ∀ fuel (chunks : List (List Char)) (acc msg : List Char),
    '\n' ∉ acc → readLanLoop fuel chunks acc = some msg →
    '\n' ∈ msg ∧ ∃ k, msg = acc ++ (chunks.take k).join ∧
      ∀ j < k, '\n' ∉ acc ++ (chunks.take j).join := by
  intro fuel
  induction fuel with
  | zero => intro chunks acc msg _ h; simp [readLanLoop] at h
  | succ fuel ih =>
    intro chunks acc msg hacc h
    simp only [readLanLoop] at h
    split at h
    case isTrue hin =>
      obtain rfl := Option.some.inj h
      refine ⟨hin, 1, ?_, ?_⟩
      · cases chunks <;> simp
      · intro j hj
        have hj0 : j = 0 := by omega
        subst hj0
        cases chunks <;> simpa using hacc
    case isFalse hnin =>
      obtain ⟨hin, k, hmsg, hmin⟩ := ih chunks.tail (acc ++ chunks.headD []) msg hnin h
      refine ⟨hin, k+1, ?_, ?_⟩
      · cases chunks with
        | nil => simpa using hmsg
        | cons c cs => simpa [List.append_assoc] using hmsg
      · intro j hj
        cases j with
        | zero => cases chunks <;> simpa using hacc
        | succ j2 =>
          cases chunks with
          | nil => simpa using hacc
          | cons c cs =>
            simpa [List.append_assoc] using hmin j2 (by omega)

/-- C3: in NETWORK mode `read` accumulates bounded receives, stops as soon
as the accumulator contains a newline anywhere, and returns the entire
accumulated text including the terminator; consequently `ask("*IDN?")`
returns the instrument reply with its trailing `"\r\n"` intact. -/
theorem read_network_returns_full_text :
    (∀ fuel chunks msg, readLanLoop fuel chunks [] = some msg →
      '\n' ∈ msg ∧ ∃ k, msg = (chunks.take k).join ∧
        ∀ j < k, '\n' ∉ (chunks.take j).join) ∧
    (ask_lan "*IDN?".toList ["ACME,BOSA400,001,1.0\r\n".toList] 1
      = ("*IDN?\r\n".toList, some "ACME,BOSA400,001,1.0\r\n".toList) ∧
     "ACME,BOSA400,001,1.0\r\n".toList
      = "ACME,BOSA400,001,1.0".toList ++ ['\r', '\n']) := by
  refine ⟨?_, by decide, by decide⟩
  intro fuel chunks msg h
  obtain ⟨hin, k, hmsg, hmin⟩ := readLanLoop_some fuel chunks [] msg (by simp) h
  exact ⟨hin, k, by simpa using hmsg, fun j hj => by simpa using hmin j hj⟩

/-- Witness for C3: a single delivered chunk `"a\n"`. -/
theorem read_network_returns_full_text_witness :
    '\n' ∈ (['a', '\n'] : List Char) ∧
      ∃ k, (['a', '\n'] : List Char) = (([[ 'a', '\n']] : List (List Char)).take k).join ∧
        ∀ j < k, '\n' ∉ (([[ 'a', '\n']] : List (List Char)).take j).join :=
  read_network_returns_full_text.1 1 [['a', '\n']] ['a', '\n'] (by decide)

/-- When the newline is the final character of the whole stream, the `read`
loop consumes every delivered chunk and returns the full stream. -/
theorem readLanLoop_terminator_last : ∀ (chunks : List (List Char)) (acc body : List Char),
    chunks ≠ [] → (∀ c ∈ chunks, c ≠ []) →
    acc ++ chunks.join = body ++ ['\n'] → '\n' ∉ body →
    readLanLoop chunks.length chunks acc = some (body ++ ['\n']) := by
  intro chunks
  induction chunks with
  | nil => intro acc body h; exact absurd rfl h
  | cons c cs ih =>
    intro acc body _ hne heq hnb
    simp only [List.length_cons, readLanLoop, List.headD_cons, List.tail_cons]
    by_cases hcs : cs = []
    · subst hcs
      have hac : acc ++ c = body ++ ['\n'] := by simpa using heq
      have hmem : '\n' ∈ acc ++ c := by rw [hac]; simp
      rw [if_pos hmem, hac]
    · have hlen1 : 1 ≤ cs.join.length := by
        cases cs with
        | nil => exact absurd rfl hcs
        | cons d ds =>
          have hd : d ≠ [] := hne d (by simp)
          cases d with
          | nil => exact absurd rfl hd
          | cons x xs => simp
      have hnotin : '\n' ∉ acc ++ c := by
        intro hmem
        have heq2 : (acc ++ c) ++ cs.join = body ++ ['\n'] := by
          simpa [List.append_assoc] using heq
        have hlst := congrArg List.length heq2
        simp only [List.length_append, List.length_cons, List.length_nil] at hlst
        have hlen : (acc ++ c).length ≤ body.length := by
          simp only [List.length_append]
          omega
        have h1 : ((acc ++ c) ++ cs.join).take ((acc ++ c).length) = acc ++ c := by
          rw [List.take_append_of_le_length (Nat.le_refl _), List.take_length]
        have h2 : (body ++ ['\n']).take ((acc ++ c).length)
            = body.take ((acc ++ c).length) := List.take_append_of_le_length hlen
        have htake : acc ++ c = body.take ((acc ++ c).length) := by
          have h3 : ((acc ++ c) ++ cs.join).take ((acc ++ c).length)
              = (body ++ ['\n']).take ((acc ++ c).length) := by rw [heq2]
          rw [h1, h2] at h3
          exact h3
        exact hnb (List.mem_of_mem_take (htake ▸ hmem))
      rw [if_neg hnotin]
      exact ih (acc ++ c) body hcs (fun d hd => hne d (by simp [hd]))
        (by simpa [List.append_assoc] using heq) hnb

/-- C4 (amended): delivery-granularity invariance of `read` holds for
streams whose single newline is the final byte — any fragmentation into
non-empty chunks returns the same text as a single-fragment delivery,
namely the whole stream. -/
theorem read_network_fragmentation_inv (body : List Char) (chunks : List (List Char))
    (hnb : '\n' ∉ body) (hj : chunks.join = body ++ ['\n'])
    (hne : ∀ c ∈ chunks, c ≠ []) (hnn : chunks ≠ []) :
    readLanLoop chunks.length chunks [] = readLanLoop 1 [body ++ ['\n']] [] ∧
    readLanLoop 1 [body ++ ['\n']] [] = some (body ++ ['\n']) := by
  have h1 : readLanLoop chunks.length chunks [] = some (body ++ ['\n']) :=
    readLanLoop_terminator_last chunks [] body hnn hne (by simpa using hj) hnb
  have h2 : readLanLoop 1 [body ++ ['\n']] [] = some (body ++ ['\n']) := by
    simp [readLanLoop]
  exact ⟨h1.trans h2.symm, h2⟩

/-- Witness for the amended C4: stream `"a\n"` delivered byte-by-byte
versus in one fragment. -/
theorem read_network_fragmentation_inv_witness :
    ('\n' ∉ (['a'] : List Char) ∧
      ([[ 'a'], ['\n']] : List (List Char)).join = ['a'] ++ ['\n'] ∧
      (∀ c ∈ ([[ 'a'], ['\n']] : List (List Char)), c ≠ []) ∧
      ([[ 'a'], ['\n']] : List (List Char)) ≠ []) ∧
    (readLanLoop ([[ 'a'], ['\n']] : List (List Char)).length [['a'], ['\n']] []
        = readLanLoop 1 [['a'] ++ ['\n']] [] ∧
      readLanLoop 1 [['a'] ++ ['\n']] [] = some (['a'] ++ ['\n'])) :=
  ⟨⟨by decide, by decide, by decide, by decide⟩,
    read_network_fragmentation_inv ['a'] [['a'], ['\n']] (by decide) (by decide)
      (by decide) (by decide)⟩

/-- C4 counterexample: the stream `"a\nb"` delivered one byte at a time
yields `"a\n"`, but delivered in a single fragment yields `"a\nb"` — same
total bytes and terminator, different result, refuting the claim as
stated. -/
theorem read_network_fragmentation_cex :
    readLanLoop 5 [['a'], ['\n'], ['b']] [] ≠ readLanLoop 5 [['a', '\n', 'b']] [] := by
  decide

/-- C6: for every command string and both transport kinds, `write` appends
the canonical terminator `"\r\n"` to the command and hands all resulting
bytes to the channel. -/
theorem write_appends_terminator (kind : Interface) (command : List Char) :
    write kind command = command ++ ['\r', '\n'] := by
  cases kind <;> rfl

/-- C10: `read_TRACE_ASCII` performs the bus-style ASCII-list read on the
stored handle with no dispatch on the interface kind; on a NETWORK (socket)
connection it always fails with `AttributeError` (as does `ask_TRACE_ASCII`)
and never returns a value, while on a GPIB connection it returns the parsed
list. -/
theorem read_TRACE_ASCII_gpib_only :
    (∀ vs, read_TRACE_ASCII (instrumentOf .lan vs) = .error .attributeError ∧
      ask_TRACE_ASCII (instrumentOf .lan vs) = .error .attributeError) ∧
    (∀ vs, read_TRACE_ASCII (instrumentOf .gpib vs) = .ok vs ∧
      ask_TRACE_ASCII (instrumentOf .gpib vs) = .ok vs) :=
  ⟨fun _ => ⟨rfl, rfl⟩, fun _ => ⟨rfl, rfl⟩⟩

/-- C7 counterexample: `set_bottomY` called with the invalid magnitude
`"XYZ"` (outside its accepted enumeration `DBM`/`MW`/empty) still formats
and sends the command — without the magnitude suffix and with no diagnostic
— contradicting the claim that the command is never formatted or sent for
an invalid enumerated parameter. -/
theorem facade_validation_cex :
    set_bottomY "-60".toList (some "XYZ".toList) (.bool false) (.bool false)
      = .sent "DISP:TRAC:Y:BOTT -60".toList := by
  decide

/-- C7 (amended): for the modelled setters, an invalid enumerated parameter
is reported with the command skipped and a normal return only when the
diagnostic can be formatted (string-valued invalid `on`); `set_state` with
an invalid non-string `on` raises `TypeError` from the diagnostic itself,
and `set_bottomY` with an invalid magnitude silently formats and sends the
command without the magnitude suffix. -/
theorem facade_validation_amended :
    (∀ ms s, stateArgsValid ms (.str s) = false →
      set_state ms (.str s) = .printedDiag ("Measurement state ".toList ++ ms
        ++ " or state ".toList ++ s ++ " not valid".toList)) ∧
    (∀ ms n, stateArgsValid ms (.int n) = false →
      set_state ms (.int n) = .raised .typeError) ∧
    (∀ v mag, (upperStr (magStr mag) == "DBM".toList) = false →
      (upperStr (magStr mag) == "MW".toList) = false →
      (upperStr (magStr mag) == ([] : List Char)) = false →
      set_bottomY v mag (.bool false) (.bool false)
        = .sent ("DISP:TRAC:Y:BOTT ".toList ++ v)) := by
  refine ⟨?_, ?_, ?_⟩
  · intro ms s h
    simp [set_state, h]
  · intro ms n h
    simp [set_state, h]
  · intro v mag h1 h2 h3
    simp only [set_bottomY, windPart, scalPart, pyEq, h1, h2, h3]
    norm_num

/-- Witness for the amended C7 at concrete invalid parameters. -/
theorem facade_validation_amended_witness :
    (stateArgsValid "XX".toList (.str ['5']) = false ∧
      set_state "XX".toList (.str ['5']) = .printedDiag ("Measurement state ".toList
        ++ "XX".toList ++ " or state ".toList ++ ['5'] ++ " not valid".toList)) ∧
    (stateArgsValid "XX".toList (.int 5) = false ∧
      set_state "XX".toList (.int 5) = .raised .typeError) ∧
    ((upperStr (magStr (some "XYZ".toList)) == "DBM".toList) = false ∧
      (upperStr (magStr (some "XYZ".toList)) == "MW".toList) = false ∧
      (upperStr (magStr (some "XYZ".toList)) == ([] : List Char)) = false ∧
      set_bottomY "-61".toList (some "XYZ".toList) (.bool false) (.bool false)
        = .sent ("DISP:TRAC:Y:BOTT ".toList ++ "-61".toList)) :=
  ⟨⟨by decide, facade_validation_amended.1 "XX".toList ['5'] (by decide)⟩,
   ⟨by decide, facade_validation_amended.2.1 "XX".toList 5 (by decide)⟩,
   by decide, by decide, by decide,
   facade_validation_amended.2.2 "-61".toList (some "XYZ".toList)
     (by decide) (by decide) (by decide)⟩

/-- C8 (behaviour of the teardown): whenever the close inside `__del__`
raises any error, the except-handler evaluates `e.message`, which Python 3
exceptions do not have, so an `AttributeError` escapes the destructor
instead of being logged — contradicting the claim that close errors are
never propagated; only the error-free close path returns quietly. -/
theorem del_method_propagates :
    (∀ e, del_method (some e) = .propagated .attributeError) ∧
    del_method none = .closedOk :=
  ⟨fun _ => rfl, rfl⟩

/-- C9 counterexample: `ask_TRACE_ASCII` issues its `"FORM ASCII"` write and
then a second write with no read in between, refuting the one-read-per-write
invariant as stated. -/
theorem one_read_per_write_cex :
    oneReadPerWrite ask_TRACE_ASCII_actions = false := by
  decide

/-- C9 (amended): `ask` and `ask_TRACE_REAL` each issue exactly one write
followed by exactly one read, but `ask_TRACE_ASCII` issues two consecutive
writes (`"FORM ASCII"`, then `"TRAC?"`) followed by a single read, so the
write/read alternation fails for it. -/
theorem one_read_per_write_amended :
    (∀ c, oneReadPerWrite (ask_actions c) = true) ∧
    oneReadPerWrite ask_TRACE_REAL_actions = true ∧
    ask_TRACE_ASCII_actions = [.wr "FORM ASCII".toList, .wr "TRAC?".toList, .rd] ∧
    oneReadPerWrite ask_TRACE_ASCII_actions = false :=
  ⟨fun _ => rfl, rfl, rfl, rfl⟩

end BOSA
